import Mathlib

/-!
Shallow embedding of `EqualValueEmbeddedConstraint` (MOOSE), the
node-to-element equal-value embedded constraint.  Real-valued quantities of
the C++ source (`Real` = double) are modelled exactly as rationals `ℚ`;
degree-of-freedom indices and element/node ids as `Nat`.  Member fields of
the C++ object that the constraint reads (`_u_slave`, `_test_slave`, …) are
collected in `ConstraintState`; the loop counters `_i`, `_j`, `_qp` are
passed explicitly.  `mooseError` (which aborts the run) is modelled as the
`Except.error` branch of `Except String ℚ`.
-/

namespace EqualValueEmbeddedConstraint

/-- The `formulation` enum of the source (`Formulation::KINEMATIC`,
`Formulation::PENALTY`); `INVALID` stands for any enum value outside the
two declared ones, the case the source's `default:` branches guard. -/
inductive Formulation where
  | KINEMATIC
  | PENALTY
  | INVALID
deriving DecidableEq, Repr

/-- `Moose::ConstraintType`. -/
inductive ConstraintType where
  | Slave
  | Master
deriving DecidableEq, Repr

/-- `Moose::ConstraintJacobianType`. -/
inductive ConstraintJacobianType where
  | SlaveSlave
  | SlaveMaster
  | MasterSlave
  | MasterMaster
deriving DecidableEq, Repr

/-- The member state of `EqualValueEmbeddedConstraint` read by the
residual/Jacobian routines.  `residual_copy` is `_residual_copy`, the
ghosted copy of the global residual vector, indexed by dof;
`jacobian` is `(*_jacobian)`, the physical system's Jacobian matrix;
`node_dof` is `_current_node->dof_number(sys_num, _var.number(), 0)`. -/
structure ConstraintState where
  formulation : Formulation
  penalty : ℚ
  u_slave : List ℚ
  u_master : List ℚ
  test_slave : List (List ℚ)
  test_master : List (List ℚ)
  phi_slave : List (List ℚ)
  phi_master : List (List ℚ)
  residual_copy : Nat → ℚ
  jacobian : Nat → Nat → ℚ
  node_dof : Nat
  connected_dof_indices : List Nat
  constraint_residual : ℚ

/-- Indexing `_x[i][qp]` on a variable-test/trial table, out-of-range
reads defaulting to 0 (never exercised by the theorems at in-range
indices). -/
def tbl (x : List (List ℚ)) (i qp : Nat) : ℚ :=
  (x.getD i []).getD qp 0

/-- `EqualValueEmbeddedConstraint::reinitConstraint`: recomputes the
constraint residual scalar from the current inputs.
kinematic: `-_residual_copy(dof_number)`;
penalty: `_penalty * (_u_slave[0] - _u_master[0])`;
default: `mooseError("Invalid formulation")`. -/
def reinitConstraint (s : ConstraintState) : Except String ℚ :=
  match s.formulation with
  | .KINEMATIC => .ok (-(s.residual_copy s.node_dof))
  | .PENALTY => .ok (s.penalty * (s.u_slave.getD 0 0 - s.u_master.getD 0 0))
  | .INVALID => .error "Invalid formulation"

/-- `EqualValueEmbeddedConstraint::computeQpResidual`.  Starts from
`resid = _constraint_residual`; on the `Moose::Slave` branch the kinematic
formulation adds `pen_force = _penalty * (_u_slave[_qp] - _u_master[_qp])`,
then returns `_test_slave[_i][_qp] * resid`; the `Moose::Master` branch
returns `_test_master[_i][_qp] * -resid`.  (No formulation switch occurs
here, so no error path.) -/
def computeQpResidual (s : ConstraintState) (type : ConstraintType)
    (i qp : Nat) : ℚ :=
  let resid := s.constraint_residual
  match type with
  | .Slave =>
    let resid :=
      if s.formulation = .KINEMATIC then
        resid + s.penalty * (s.u_slave.getD qp 0 - s.u_master.getD qp 0)
      else resid
    tbl s.test_slave i qp * resid
  | .Master => tbl s.test_master i qp * (-resid)

/-- The entry `(*_jacobian)(slave node dof, _connected_dof_indices[_j])`
copied from the physical system's Jacobian. -/
def currJac (s : ConstraintState) (j : Nat) : ℚ :=
  s.jacobian s.node_dof (s.connected_dof_indices.getD j 0)

/-- `EqualValueEmbeddedConstraint::computeQpJacobian`: the four on-diagonal
coupling blocks, each with an inner switch on the formulation whose
`default:` is `mooseError("Invalid formulation")`. -/
def computeQpJacobian (s : ConstraintState) (type : ConstraintJacobianType)
    (i j qp : Nat) : Except String ℚ :=
  match type with
  | .SlaveSlave =>
    match s.formulation with
    | .KINEMATIC =>
        .ok (-(currJac s j) + tbl s.phi_slave j qp * s.penalty * tbl s.test_slave i qp)
    | .PENALTY => .ok (tbl s.phi_slave j qp * s.penalty * tbl s.test_slave i qp)
    | .INVALID => .error "Invalid formulation"
  | .SlaveMaster =>
    match s.formulation with
    | .KINEMATIC => .ok (-(tbl s.phi_master j qp) * s.penalty * tbl s.test_slave i qp)
    | .PENALTY => .ok (-(tbl s.phi_master j qp) * s.penalty * tbl s.test_slave i qp)
    | .INVALID => .error "Invalid formulation"
  | .MasterSlave =>
    match s.formulation with
    | .KINEMATIC => .ok (currJac s j * tbl s.test_master i qp)
    | .PENALTY => .ok (-(tbl s.phi_slave j qp) * s.penalty * tbl s.test_master i qp)
    | .INVALID => .error "Invalid formulation"
  | .MasterMaster =>
    match s.formulation with
    | .KINEMATIC => .ok 0
    | .PENALTY => .ok (tbl s.test_master i qp * s.penalty * tbl s.phi_master j qp)
    | .INVALID => .error "Invalid formulation"

/-- `EqualValueEmbeddedConstraint::computeQpOffDiagJacobian` (the `jvar`
argument is unused by the source, as its commented-out parameter name
indicates): SlaveSlave returns `-curr_jac` with no formulation dispatch;
SlaveMaster and MasterMaster return `0.0`; MasterSlave dispatches on the
formulation with a `mooseError` default. -/
def computeQpOffDiagJacobian (s : ConstraintState)
    (type : ConstraintJacobianType) (i j qp : Nat) : Except String ℚ :=
  match type with
  | .SlaveSlave => .ok (-(currJac s j))
  | .SlaveMaster => .ok 0
  | .MasterSlave =>
    match s.formulation with
    | .KINEMATIC => .ok (currJac s j * tbl s.test_master i qp)
    | .PENALTY => .ok 0
    | .INVALID => .error "Invalid formulation"
  | .MasterMaster => .ok 0

/-- `EqualValueEmbeddedConstraint::getConnectedDofIndices(var_num)`.
The base-class call `NodeElemConstraint::getConnectedDofIndices(var_num)`
(framework code, not in this repository) fills `_connected_dof_indices`;
it is taken here as the input `connected`, and
`_sys.getVariable(0, var_num).nodalDofIndex()` as `node_var_dof`.  The
override then resizes `_phi_slave` to `_connected_dof_indices.size()`,
gives each entry a single quadrature-point slot (`_qp = 0`), and sets
`_phi_slave[j][0]` to `1.0` when `_connected_dof_indices[j]` equals the
current node's dof index for the variable, else `0.0`. -/
def getConnectedDofIndices (s : ConstraintState) (connected : List Nat)
    (node_var_dof : Nat) : ConstraintState :=
  { s with
    connected_dof_indices := connected,
    phi_slave := connected.map fun d => [if d = node_var_dof then (1 : ℚ) else 0] }

/-- A `DenseMatrix<Number>`: dimensions plus an entry table (reads outside
the dimensions are irrelevant to the assembly loops, which stay in
bounds). -/
structure DenseMat where
  m : Nat
  n : Nat
  entry : Nat → Nat → ℚ

/-- `DenseMatrix::resize(m, n)`: sets the dimensions and zeroes every
entry. -/
def DenseMat.resize (_A : DenseMat) (m n : Nat) : DenseMat :=
  ⟨m, n, fun _ _ => 0⟩

/-- The double loop `for (_i = 0; _i < I; _i++) for (_j = 0; _j < J; _j++)
  A(_i, _j) += f(_i, _j);` -/
def DenseMat.accum (A : DenseMat) (I J : Nat) (f : Nat → Nat → ℚ) : DenseMat :=
  { A with entry := fun i j => if i < I ∧ j < J then A.entry i j + f i j else A.entry i j }

/-- The scalar added per entry in the on-diagonal assembly loops: the value
of `computeQpJacobian` on its non-error path (the error path aborts the
whole assembly via `mooseError`, see `computeQpJacobian`). -/
def qpJacValue (s : ConstraintState) (type : ConstraintJacobianType)
    (i j qp : Nat) : ℚ :=
  match computeQpJacobian s type i j qp with
  | .ok v => v
  | .error _ => 0

/-- The scalar added per entry in the off-diagonal assembly loops. -/
def qpOffDiagValue (s : ConstraintState) (type : ConstraintJacobianType)
    (i j qp : Nat) : ℚ :=
  match computeQpOffDiagJacobian s type i j qp with
  | .ok v => v
  | .error _ => 0

/-- The four Jacobian coupling blocks touched by assembly: `Kee` is the
member `_Kee` (slave-slave), `Ken` the assembly block
`jacobianBlockNeighbor(ElementNeighbor, …)` (slave-master), `Kne` the
member `_Kne` (master-slave), `Knn` the assembly block
`jacobianBlockNeighbor(NeighborNeighbor, …)` (master-master). -/
structure JacBlocks where
  Kee : DenseMat
  Ken : DenseMat
  Kne : DenseMat
  Knn : DenseMat

/-- `EqualValueEmbeddedConstraint::computeJacobian()`: calls
`getConnectedDofIndices(_var.number())`, then
resizes `_Kee` to `(_test_slave.size(), _connected_dof_indices.size())` and
accumulates SlaveSlave into it;
accumulates SlaveMaster into `Ken` only when `Ken.m() && Ken.n()`;
resizes `_Kne` to `(_test_master.size(), _connected_dof_indices.size())`
and accumulates MasterSlave into it;
accumulates MasterMaster into `Knn` only when `Knn.m() && Knn.n()`. -/
def computeJacobian (s₀ : ConstraintState) (connected : List Nat)
    (node_var_dof : Nat) (b : JacBlocks) : JacBlocks :=
  let s := getConnectedDofIndices s₀ connected node_var_dof
  let I := s.test_slave.length
  let Jc := s.connected_dof_indices.length
  let Im := s.test_master.length
  let Jm := s.phi_master.length
  let Kee := (b.Kee.resize I Jc).accum I Jc fun i j => qpJacValue s .SlaveSlave i j 0
  let Ken :=
    if 0 < b.Ken.m ∧ 0 < b.Ken.n then
      b.Ken.accum I Jm fun i j => qpJacValue s .SlaveMaster i j 0
    else b.Ken
  let Kne := (b.Kne.resize Im Jc).accum Im Jc fun i j => qpJacValue s .MasterSlave i j 0
  let Knn :=
    if 0 < b.Knn.m ∧ 0 < b.Knn.n then
      b.Knn.accum Im Jm fun i j => qpJacValue s .MasterMaster i j 0
    else b.Knn
  ⟨Kee, Ken, Kne, Knn⟩

/-- `EqualValueEmbeddedConstraint::computeOffDiagJacobian(jvar)`: calls
`getConnectedDofIndices(jvar)`, then resizes `_Kee` and accumulates
SlaveSlave (no guard); accumulates SlaveMaster into `Ken` (no guard);
resizes `_Kne` and accumulates MasterSlave only when
`_Kne.m() && _Kne.n()` (the post-resize dimensions); accumulates
MasterMaster into `Knn` (no guard). -/
def computeOffDiagJacobian (s₀ : ConstraintState) (connected : List Nat)
    (node_var_dof : Nat) (b : JacBlocks) : JacBlocks :=
  let s := getConnectedDofIndices s₀ connected node_var_dof
  let I := s.test_slave.length
  let Jc := s.connected_dof_indices.length
  let Im := s.test_master.length
  let Jm := s.phi_master.length
  let Kee := (b.Kee.resize I Jc).accum I Jc fun i j => qpOffDiagValue s .SlaveSlave i j 0
  let Ken := b.Ken.accum I Jm fun i j => qpOffDiagValue s .SlaveMaster i j 0
  let Kne0 := b.Kne.resize Im Jc
  let Kne :=
    if 0 < Kne0.m ∧ 0 < Kne0.n then
      Kne0.accum Im Jc fun i j => qpOffDiagValue s .MasterSlave i j 0
    else Kne0
  let Knn := b.Knn.accum Im Jm fun i j => qpOffDiagValue s .MasterMaster i j 0
  ⟨Kee, Ken, Kne, Knn⟩

/-- `std::map::find` on the association list representing
`_slave_to_master_map` (keys are unique, so list order is immaterial). -/
def lookupMap : List (Nat × Nat) → Nat → Option Nat
  | [], _ => none
  | (k, v) :: rest, n => if n = k then some v else lookupMap rest n

/-- Number of occurrences of `n` in a list of ids. -/
def countOcc (n : Nat) : List Nat → Nat
  | [] => 0
  | k :: rest => (if k = n then 1 else 0) + countOcc n rest

/-- The state built by `prepareSlaveToMasterMap`: `map` is
`_slave_to_master_map` (keyed, at most one binding per node id; the
std::map's internal ordering is immaterial, only lookup is used), `ghosts`
records the element ids passed to `_subproblem.addGhostedElem`, and
`queries` logs the node ids on which `pointLocator->operator()` was
invoked. -/
structure MapState where
  map : List (Nat × Nat)
  ghosts : List Nat
  queries : List Nat

/-- The body of the inner loop of `prepareSlaveToMasterMap` for one slave
node `sid`: if `sid` is already a key of `_slave_to_master_map`, nothing
happens (no locator query); otherwise the point locator restricted to the
master subdomain is queried (`locator sid`); a hit inserts
`(sid → mid)` and registers `mid` for ghosting, a miss changes nothing. -/
def processNode (locator : Nat → Option Nat) (s : MapState) (sid : Nat) : MapState :=
  match lookupMap s.map sid with
  | some _ => s
  | none =>
    match locator sid with
    | some mid =>
      { map := (sid, mid) :: s.map,
        ghosts := mid :: s.ghosts,
        queries := sid :: s.queries }
    | none => { s with queries := sid :: s.queries }

/-- `EqualValueEmbeddedConstraint::prepareSlaveToMasterMap()`: iterates
the active elements of the slave subdomain (`elems`, each given by its
node-id list) and their nodes, starting from an empty map.  The point
locator is in out-of-mesh mode restricted to the master subdomain, so it is
a function from a node to `Option` element id. -/
def prepareSlaveToMasterMap (locator : Nat → Option Nat)
    (elems : List (List Nat)) : MapState :=
  elems.flatten.foldl (processNode locator) ⟨[], [], []⟩

/-- A mesh node: its id and its physical location (`libMesh::Point`,
three coordinates). -/
structure Node where
  id : Nat
  coords : ℚ × ℚ × ℚ

/-- The state acted on by `shouldApply`: the constraint members, the
slave-to-master map, the current node, and the neighbor-reinitialization
context recorded by `setNeighborSubdomainID` / `reinitNeighborPhys`
(`neighbor_elem` = the element set as neighbor context, `reinit_points`
= the points at which field/shape data was reinitialized). -/
structure ApplyState where
  cs : ConstraintState
  slave_to_master_map : List (Nat × Nat)
  current_node : Node
  neighbor_elem : Option Nat
  reinit_points : List (ℚ × ℚ × ℚ)

/-- `EqualValueEmbeddedConstraint::shouldApply()`: looks the current node's
id up in `_slave_to_master_map`.  If absent, returns `false` and does
nothing.  If present: resolves the stored master element, sets it as the
neighbor context, reinitializes the neighbor physics at the single point
`{*_current_node}`, calls `reinitConstraint()` (whose field values after
reinitialization are those carried by `cs`), and returns `true`. -/
def shouldApply (s : ApplyState) : Except String (Bool × ApplyState) :=
  match lookupMap s.slave_to_master_map s.current_node.id with
  | some mid =>
    match reinitConstraint s.cs with
    | .ok r =>
      .ok (true,
        { s with
          neighbor_elem := some mid,
          reinit_points := [s.current_node.coords],
          cs := { s.cs with constraint_residual := r } })
    | .error e => .error e
  | none => .ok (false, s)

/-- The spec's on-diagonal Jacobian table (section 4.4), written from the
spec's words: with φ = trial shape value, ψ = test shape value and J the
physical-system Jacobian entry at (slave dof, connected dof) —
slave-slave: −J + φ_slave·penalty·ψ_slave (kinematic) or
φ_slave·penalty·ψ_slave (penalty); slave-master: −φ_master·penalty·ψ_slave
(both); master-slave: J·ψ_master (kinematic) or −φ_slave·penalty·ψ_master
(penalty); master-master: 0 (kinematic) or ψ_master·penalty·φ_master
(penalty).  Only the two declared formulations are tabulated. -/
def specJacobianTable (s : ConstraintState) (type : ConstraintJacobianType)
    (i j qp : Nat) : ℚ :=
  match type, s.formulation with
  | .SlaveSlave, .KINEMATIC =>
      -(currJac s j) + tbl s.phi_slave j qp * s.penalty * tbl s.test_slave i qp
  | .SlaveSlave, _ => tbl s.phi_slave j qp * s.penalty * tbl s.test_slave i qp
  | .SlaveMaster, _ => -(tbl s.phi_master j qp) * s.penalty * tbl s.test_slave i qp
  | .MasterSlave, .KINEMATIC => currJac s j * tbl s.test_master i qp
  | .MasterSlave, _ => -(tbl s.phi_slave j qp) * s.penalty * tbl s.test_master i qp
  | .MasterMaster, .KINEMATIC => 0
  | .MasterMaster, _ => tbl s.test_master i qp * s.penalty * tbl s.phi_master j qp

/-- The spec's off-diagonal (cross-variable) Jacobian table, written from
the spec's words: slave-master and master-master are always 0; slave-slave
is −J with no penalty term in every formulation; master-slave is
J·ψ_master for kinematic and 0 for penalty. -/
def specOffDiagTable (s : ConstraintState) (type : ConstraintJacobianType)
    (i j qp : Nat) : ℚ :=
  match type, s.formulation with
  | .SlaveSlave, _ => -(currJac s j)
  | .SlaveMaster, _ => 0
  | .MasterSlave, .KINEMATIC => currJac s j * tbl s.test_master i qp
  | .MasterSlave, _ => 0
  | .MasterMaster, _ => 0

/-- Concrete state of the spec's end-to-end scenario: formulation penalty,
penalty 10, slave value 2, master value 1, with the constraint residual
already recomputed by `reinitConstraint` (10). -/
def scenarioState : ConstraintState :=
  { formulation := .PENALTY, penalty := 10, u_slave := [2], u_master := [1],
    test_slave := [[1]], test_master := [[1]], phi_slave := [[1]],
    phi_master := [[1]], residual_copy := fun _ => 0,
    jacobian := fun _ _ => 0, node_dof := 0, connected_dof_indices := [0],
    constraint_residual := 10 }

/-- Concrete kinematic state used to witness the kinematic residual
formula: the ghosted residual holds 5 at every dof. -/
def kinState : ConstraintState :=
  { formulation := .KINEMATIC, penalty := 3, u_slave := [0], u_master := [0],
    test_slave := [[1]], test_master := [[1]], phi_slave := [[1]],
    phi_master := [[1]], residual_copy := fun _ => 5,
    jacobian := fun _ _ => 0, node_dof := 2, connected_dof_indices := [2],
    constraint_residual := 0 }

/-- C1: `reinitConstraint` recomputes the constraint residual scalar from
current inputs with no caching: kinematic gives the negation of the
ghosted residual entry at the slave node's dof (and substituting any other
ghosted residual vector changes the result identically), penalty gives
penalty × (slave value − master value) at the evaluation point. -/
theorem C1_reinitConstraint_recomputes (s : ConstraintState) (r : Nat → ℚ) :
    (s.formulation = .KINEMATIC →
      reinitConstraint s = .ok (-(s.residual_copy s.node_dof)) ∧
      reinitConstraint { s with residual_copy := r } = .ok (-(r s.node_dof))) ∧
    (s.formulation = .PENALTY →
      reinitConstraint s =
        .ok (s.penalty * (s.u_slave.getD 0 0 - s.u_master.getD 0 0))) := by
  refine ⟨fun h => ⟨?_, ?_⟩, fun h => ?_⟩ <;> simp [reinitConstraint, h]

/-- Witness for C1: at the concrete kinematic state the constraint
residual is −5; replacing the ghosted residual by the constant-7 vector
yields −7; at the concrete penalty state it is 10·(2−1) = 10. -/
theorem C1_witness :
    reinitConstraint kinState = .ok (-5) ∧
    reinitConstraint { kinState with residual_copy := fun _ => 7 } = .ok (-7) ∧
    reinitConstraint scenarioState = .ok 10 := by
  have hkin := (C1_reinitConstraint_recomputes kinState fun _ => 7).1 rfl
  have hpen := (C1_reinitConstraint_recomputes scenarioState fun _ => 7).2 rfl
  refine ⟨hkin.1, hkin.2, ?_⟩
  rw [hpen]; norm_num [scenarioState]

/-- C2 counterexample: in the spec's end-to-end scenario (formulation
penalty, penalty 10, slave 2, master 1, so `reinitConstraint` yields 10)
the slave-side per-quadrature-point residual is test_slave·10 = 10 (the
penalty formulation adds no extra pen_force term), not the claimed
test_slave·20. -/
theorem C2_counterexample :
    reinitConstraint scenarioState = .ok 10 ∧
    tbl scenarioState.test_slave 0 0 = 1 ∧
    computeQpResidual scenarioState .Slave 0 0 = 10 ∧
    ¬ computeQpResidual scenarioState .Slave 0 0 = 1 * 20 := by
  refine ⟨?_, ?_, ?_, ?_⟩ <;>
    (norm_num [reinitConstraint, computeQpResidual, scenarioState, tbl]; try decide)

/-- C2 (amended): for every test index, quadrature point and formulation,
the slave-side residual is test_slave × (constraint_residual + (kinematic ?
penalty×(slave−master) : 0)) and the master-side residual is test_master ×
(−constraint_residual); in the spec's scenario (penalty, penalty 10,
slave 2, master 1) the constraint residual is 10, the slave contribution is
test_slave × 10 and the master contribution is test_master × (−10). -/
theorem C2_computeQpResidual (s : ConstraintState) (i qp : Nat) :
    (computeQpResidual s .Slave i qp =
      tbl s.test_slave i qp *
        (s.constraint_residual +
          (if s.formulation = .KINEMATIC then
            s.penalty * (s.u_slave.getD qp 0 - s.u_master.getD qp 0)
          else 0)) ∧
     computeQpResidual s .Master i qp =
       tbl s.test_master i qp * (-(s.constraint_residual))) ∧
    (reinitConstraint scenarioState = .ok 10 ∧
     computeQpResidual scenarioState .Slave 0 0 =
       tbl scenarioState.test_slave 0 0 * 10 ∧
     computeQpResidual scenarioState .Master 0 0 =
       tbl scenarioState.test_master 0 0 * (-10)) := by
  refine ⟨⟨?_, ?_⟩, ?_, ?_, ?_⟩
  · simp only [computeQpResidual]
    split <;> ring
  · simp only [computeQpResidual]
    try ring
  · norm_num [reinitConstraint, scenarioState]
  · simp only [computeQpResidual, scenarioState]
    norm_num [tbl]
    try decide
  · simp only [computeQpResidual, scenarioState]
    try norm_num [tbl]

/-- C3: for all indices and both declared formulations, the on-diagonal
per-quadrature-point Jacobian returned by `computeQpJacobian` is exactly
the spec's table (`specJacobianTable`); in particular the master-master
kinematic block is identically 0. -/
theorem C3_computeQpJacobian_table (s : ConstraintState)
    (h : s.formulation ≠ .INVALID) (type : ConstraintJacobianType)
    (i j qp : Nat) :
    computeQpJacobian s type i j qp = .ok (specJacobianTable s type i j qp) := by
  cases hf : s.formulation with
  | INVALID => exact absurd hf h
  | KINEMATIC => cases type <;> simp [computeQpJacobian, specJacobianTable, hf]
  | PENALTY => cases type <;> simp [computeQpJacobian, specJacobianTable, hf]

/-- Witness for C3: the kinematic state's master-master block evaluates to
0 and its slave-slave block to −J + φ·p·ψ = 0 + 1·3·1 = 3. -/
theorem C3_witness :
    computeQpJacobian kinState .MasterMaster 0 0 0 = .ok 0 ∧
    computeQpJacobian kinState .SlaveSlave 0 0 0 = .ok 3 := by
  have hmm := C3_computeQpJacobian_table kinState (by decide) .MasterMaster 0 0 0
  have hss := C3_computeQpJacobian_table kinState (by decide) .SlaveSlave 0 0 0
  refine ⟨hmm, ?_⟩
  rw [hss]; norm_num [specJacobianTable, kinState, tbl, currJac]

/-- C4: for all indices, every cross-variable (off-diagonal) block returned
by `computeQpOffDiagJacobian` is exactly the spec's off-diagonal table
(`specOffDiagTable`): slave-master and master-master are 0, slave-slave is
−J with no penalty term, master-slave is J·ψ_master for kinematic and 0
for penalty. -/
theorem C4_computeQpOffDiagJacobian_table (s : ConstraintState)
    (h : s.formulation ≠ .INVALID) (type : ConstraintJacobianType)
    (i j qp : Nat) :
    computeQpOffDiagJacobian s type i j qp =
      .ok (specOffDiagTable s type i j qp) := by
  cases hf : s.formulation with
  | INVALID => exact absurd hf h
  | KINEMATIC => cases type <;> simp [computeQpOffDiagJacobian, specOffDiagTable, hf]
  | PENALTY => cases type <;> simp [computeQpOffDiagJacobian, specOffDiagTable, hf]

/-- Witness for C4: at the penalty scenario state the off-diagonal
master-slave block is 0 and the slave-slave block is −J = 0; at the
kinematic state (ghosted Jacobian entries 0) the master-slave block is
J·ψ = 0. -/
theorem C4_witness :
    computeQpOffDiagJacobian scenarioState .MasterSlave 0 0 0 = .ok 0 ∧
    computeQpOffDiagJacobian scenarioState .SlaveSlave 0 0 0 = .ok (-0) ∧
    computeQpOffDiagJacobian kinState .SlaveMaster 0 0 0 = .ok 0 := by
  have h1 := C4_computeQpOffDiagJacobian_table scenarioState (by decide) .MasterSlave 0 0 0
  have h2 := C4_computeQpOffDiagJacobian_table scenarioState (by decide) .SlaveSlave 0 0 0
  have h3 := C4_computeQpOffDiagJacobian_table kinState (by decide) .SlaveMaster 0 0 0
  exact ⟨h1, h2, h3⟩

/-- C5: when the formulation value is outside {KINEMATIC, PENALTY}, every
switch branch that dispatches on the formulation aborts with the fatal
"Invalid formulation" error instead of returning a value: the dispatch in
`reinitConstraint`, the dispatch in every block of `computeQpJacobian`, and
the MasterSlave dispatch of `computeQpOffDiagJacobian` (the only
formulation switch that function contains; `computeQpResidual` contains no
formulation switch at all, so no branch of it is reached by the
formulation value). -/
theorem C5_invalid_formulation_aborts (s : ConstraintState)
    (h : s.formulation = .INVALID) (t : ConstraintJacobianType) (i j qp : Nat) :
    reinitConstraint s = .error "Invalid formulation" ∧
    computeQpJacobian s t i j qp = .error "Invalid formulation" ∧
    computeQpOffDiagJacobian s .MasterSlave i j qp =
      .error "Invalid formulation" := by
  refine ⟨?_, ?_, ?_⟩
  · simp [reinitConstraint, h]
  · cases t <;> simp [computeQpJacobian, h]
  · simp [computeQpOffDiagJacobian, h]

/-- Witness for C5: a state carrying an out-of-range formulation value
makes `reinitConstraint` and the SlaveSlave Jacobian dispatch abort. -/
theorem C5_witness :
    reinitConstraint { scenarioState with formulation := .INVALID } =
      .error "Invalid formulation" ∧
    computeQpJacobian { scenarioState with formulation := .INVALID }
      .SlaveSlave 0 0 0 = .error "Invalid formulation" := by
  have h := C5_invalid_formulation_aborts
    { scenarioState with formulation := .INVALID } rfl .SlaveSlave 0 0 0
  exact ⟨h.1, h.2.1⟩

/-- C8 counterexample: with the penalty formulation, penalty 1 and every
shape/test value 1, the slave-master block at (0,0) is −1 and the
master-slave block at (0,0) is −1, so the slave-master value does not
equal the negative of the master-slave value at matching indices. -/
theorem C8_counterexample :
    computeQpJacobian { scenarioState with penalty := 1 }
      .SlaveMaster 0 0 0 = .ok (-1) ∧
    computeQpJacobian { scenarioState with penalty := 1 }
      .MasterSlave 0 0 0 = .ok (-1) ∧
    ¬ ((-1 : ℚ) = -(-1)) := by
  refine ⟨?_, ?_, by norm_num⟩ <;>
    norm_num [computeQpJacobian, scenarioState, tbl]

/-- C8 (amended): with the penalty formulation, when the test values
coincide with the trial shape values on each side (ψ_slave = φ_slave,
ψ_master = φ_master, as they do in this constraint's single-point
evaluation), the slave-master block at (i, j) equals the master-slave
block at the transposed indices (j, i) — the two blocks are transposes of
one another, not negatives — for all penalty values. -/
theorem C8_penalty_block_transpose (s : ConstraintState)
    (hf : s.formulation = .PENALTY)
    (hts : s.test_slave = s.phi_slave) (htm : s.test_master = s.phi_master)
    (i j qp : Nat) :
    computeQpJacobian s .SlaveMaster i j qp =
      computeQpJacobian s .MasterSlave j i qp := by
  simp only [computeQpJacobian, hf, hts, htm]
  congr 1
  ring

/-- Witness for C8: the scenario state (penalty formulation, equal test
and trial tables) satisfies the transpose relation at indices (0, 0). -/
theorem C8_witness :
    computeQpJacobian scenarioState .SlaveMaster 0 0 0 =
      computeQpJacobian scenarioState .MasterSlave 0 0 0 :=
  C8_penalty_block_transpose scenarioState rfl rfl rfl 0 0 0


lemma countOcc_append (n : Nat) (a b : List Nat) :
    countOcc n (a ++ b) = countOcc n a + countOcc n b := by
  induction a with
  | nil => simp [countOcc]
  | cons k rest ih => simp [countOcc, ih]; omega

/-- Invariant of the map-building fold: after the nodes `processed` have
been visited, lookup agrees with the locator on visited nodes and is
`none` elsewhere; each located visited node has exactly one map entry; a
located visited node was queried exactly once while an unlocated one was
queried at every occurrence; and the master element id of every located
visited node has been registered for ghosting. -/
def MapInv (locator : Nat → Option Nat) (processed : List Nat)
    (s : MapState) : Prop :=
  (∀ n, lookupMap s.map n = if n ∈ processed then locator n else none) ∧
  (∀ n, countOcc n (s.map.map Prod.fst) =
      if n ∈ processed ∧ (locator n).isSome then 1 else 0) ∧
  (∀ n, countOcc n s.queries =
      if (locator n).isSome then (if n ∈ processed then 1 else 0)
      else countOcc n processed) ∧
  (∀ n m, n ∈ processed → locator n = some m → m ∈ s.ghosts)

lemma mapInv_step (locator : Nat → Option Nat) (processed : List Nat)
    (s : MapState) (n : Nat) (h : MapInv locator processed s) :
    MapInv locator (processed ++ [n]) (processNode locator s n) := by
  obtain ⟨h1, h2, h3, h4⟩ := h
  have hmem : ∀ k : Nat, k ∈ processed ++ [n] ↔ k ∈ processed ∨ k = n := by
    intro k; simp [List.mem_append]
  have hcnt : ∀ k : Nat, countOcc k (processed ++ [n]) =
      countOcc k processed + (if n = k then 1 else 0) := by
    intro k; simp [countOcc_append, countOcc]
  rcases hL : lookupMap s.map n with _ | m0
  · rcases hloc : locator n with _ | mid
    · -- not mapped, locator misses: only the query log grows
      have hstep : processNode locator s n = { s with queries := n :: s.queries } := by
        simp [processNode, hL, hloc]
      rw [hstep]
      refine ⟨?_, ?_, ?_, ?_⟩
      · intro k
        rw [h1 k]
        by_cases hk : k = n
        · rw [hk]; simp [hloc, hmem n]
        · have hiff : (k ∈ processed ∨ k = n) ↔ k ∈ processed := by tauto
          simp only [hmem k, hiff]
      · intro k
        rw [h2 k]
        by_cases hk : k = n
        · rw [hk]; simp [hloc, hmem n]
        · have hiff : (k ∈ processed ∨ k = n) ↔ k ∈ processed := by tauto
          simp only [hmem k, hiff]
      · intro k
        show (if n = k then 1 else 0) + countOcc k s.queries = _
        rw [h3 k, hcnt k]
        by_cases hk : k = n
        · rw [hk]
          simp only [hloc]
          simp
          try omega
        · have hnk : ¬ n = k := fun hh => hk hh.symm
          have hiff : (k ∈ processed ∨ k = n) ↔ k ∈ processed := by tauto
          simp only [if_neg hnk, hmem k, hiff]
          by_cases hs : (locator k).isSome
          · simp [hs]
          · simp [hs]; try omega
      · intro k m hk hm
        rcases (hmem k).mp hk with hk2 | hk2
        · exact h4 k m hk2 hm
        · rw [hk2] at hm; rw [hm] at hloc; cases hloc
    · -- not mapped, locator hits: insert, ghost, log the query
      have hnp : n ∉ processed := by
        intro hmemn
        have h1n := h1 n
        rw [hL] at h1n
        rw [if_pos hmemn, hloc] at h1n
        cases h1n
      have hstep : processNode locator s n =
          { map := (n, mid) :: s.map, ghosts := mid :: s.ghosts,
            queries := n :: s.queries } := by
        simp [processNode, hL, hloc]
      rw [hstep]
      refine ⟨?_, ?_, ?_, ?_⟩
      · intro k
        show (if k = n then some mid else lookupMap s.map k) = _
        by_cases hk : k = n
        · rw [if_pos hk, hk]; simp [hmem n, hloc]
        · rw [if_neg hk, h1 k]
          have hiff : (k ∈ processed ∨ k = n) ↔ k ∈ processed := by tauto
          simp only [hmem k, hiff]
      · intro k
        show (if n = k then 1 else 0) + countOcc k (s.map.map Prod.fst) = _
        rw [h2 k]
        by_cases hk : k = n
        · rw [hk]
          simp [hnp, hloc, hmem n]
        · have hnk : ¬ n = k := fun hh => hk hh.symm
          have hiff : (k ∈ processed ∨ k = n) ↔ k ∈ processed := by tauto
          simp only [if_neg hnk, hmem k, hiff]
          omega
      · intro k
        show (if n = k then 1 else 0) + countOcc k s.queries = _
        rw [h3 k]
        by_cases hk : k = n
        · rw [hk]
          simp [hnp, hloc, hmem n]
        · have hnk : ¬ n = k := fun hh => hk hh.symm
          have hiff : (k ∈ processed ∨ k = n) ↔ k ∈ processed := by tauto
          rw [if_neg hnk, hcnt k, if_neg hnk]
          simp only [hmem k, hiff]
          by_cases hs : (locator k).isSome
          · simp [hs]
          · simp [hs]
      · intro k m hk hm
        rcases (hmem k).mp hk with hk2 | hk2
        · exact List.mem_cons_of_mem _ (h4 k m hk2 hm)
        · rw [hk2] at hm; rw [hm] at hloc
          cases hloc
          exact List.mem_cons_self _ _
  · -- already mapped: nothing changes at all
    have h1n := h1 n
    rw [hL] at h1n
    have hin : n ∈ processed := by
      by_contra hno
      rw [if_neg hno] at h1n; cases h1n
    have hloc : locator n = some m0 := by
      rw [if_pos hin] at h1n; exact h1n.symm
    have hstep : processNode locator s n = s := by
      simp [processNode, hL]
    rw [hstep]
    refine ⟨?_, ?_, ?_, ?_⟩
    · intro k
      rw [h1 k]
      by_cases hk : k = n
      · rw [hk]; simp [hin, hmem n]
      · have hiff : (k ∈ processed ∨ k = n) ↔ k ∈ processed := by tauto
        simp only [hmem k, hiff]
    · intro k
      rw [h2 k]
      by_cases hk : k = n
      · rw [hk]; simp [hin, hmem n]
      · have hiff : (k ∈ processed ∨ k = n) ↔ k ∈ processed := by tauto
        simp only [hmem k, hiff]
    · intro k
      rw [h3 k]
      by_cases hk : k = n
      · rw [hk]
        simp [hin, hloc, hmem n]
      · have hnk : ¬ n = k := fun hh => hk hh.symm
        have hiff : (k ∈ processed ∨ k = n) ↔ k ∈ processed := by tauto
        rw [hcnt k, if_neg hnk]
        simp only [hmem k, hiff]
        by_cases hs : (locator k).isSome
        · simp [hs]
        · simp [hs]
    · intro k m hk hm
      rcases (hmem k).mp hk with hk2 | hk2
      · exact h4 k m hk2 hm
      · rw [hk2] at hm
        exact h4 n m hin hm


lemma mapInv_foldl (locator : Nat → Option Nat) :
    ∀ (rest processed : List Nat) (s : MapState),
      MapInv locator processed s →
      MapInv locator (processed ++ rest) (rest.foldl (processNode locator) s) := by
  intro rest
  induction rest with
  | nil => intro processed s h; simpa using h
  | cons n rest ih =>
    intro processed s h
    have h2 := mapInv_step locator processed s n h
    have h3 := ih (processed ++ [n]) _ h2
    simpa [List.append_assoc] using h3

lemma mapInv_init (locator : Nat → Option Nat) :
    MapInv locator [] ⟨[], [], []⟩ := by
  refine ⟨?_, ?_, ?_, ?_⟩
  · intro n; simp [lookupMap]
  · intro n; simp [countOcc]
  · intro n; simp [countOcc]
  · intro n m h; cases h

/-- C6: after `prepareSlaveToMasterMap` runs over the active slave
elements, every node has at most one map entry; a node occurring in the
slave elements whose master-restricted locator query hits element `m` has
exactly one `(node → m)` entry, has `m` registered for ghosting, and was
queried exactly once (later occurrences were skipped without re-querying);
and a node whose query misses is absent from the map, with no error
(`prepareSlaveToMasterMap` is total). -/
theorem C6_prepareSlaveToMasterMap (locator : Nat → Option Nat)
    (elems : List (List Nat)) :
    (∀ n, countOcc n ((prepareSlaveToMasterMap locator elems).map.map Prod.fst) ≤ 1) ∧
    (∀ n m, n ∈ elems.flatten → locator n = some m →
      lookupMap (prepareSlaveToMasterMap locator elems).map n = some m ∧
      countOcc n ((prepareSlaveToMasterMap locator elems).map.map Prod.fst) = 1 ∧
      m ∈ (prepareSlaveToMasterMap locator elems).ghosts ∧
      countOcc n (prepareSlaveToMasterMap locator elems).queries = 1) ∧
    (∀ n, locator n = none →
      lookupMap (prepareSlaveToMasterMap locator elems).map n = none) := by
  have hinv := mapInv_foldl locator elems.flatten [] ⟨[], [], []⟩ (mapInv_init locator)
  simp only [List.nil_append] at hinv
  obtain ⟨h1, h2, h3, h4⟩ := hinv
  unfold prepareSlaveToMasterMap
  refine ⟨?_, ?_, ?_⟩
  · intro n
    rw [h2 n]
    split <;> omega
  · intro n m hn hm
    refine ⟨?_, ?_, ?_, ?_⟩
    · rw [h1 n, if_pos hn, hm]
    · rw [h2 n]
      simp [hn, hm]
    · exact h4 n m hn hm
    · rw [h3 n]
      simp [hm, hn]
  · intro n hm
    rw [h1 n]
    split <;> simp [hm]

/-- Witness for C6: with a locator that finds element 5 for node 0 and
nothing for node 1, over slave elements [[0,1],[0]] (node 0 occurs twice):
node 0 maps to 5 with one entry, 5 is ghosted, node 0 was queried exactly
once, and node 1 is absent from the map. -/
theorem C6_witness :
    lookupMap (prepareSlaveToMasterMap
      (fun n => if n = 0 then some 5 else none) [[0, 1], [0]]).map 0 = some 5 ∧
    countOcc 0 ((prepareSlaveToMasterMap
      (fun n => if n = 0 then some 5 else none) [[0, 1], [0]]).map.map Prod.fst) = 1 ∧
    5 ∈ (prepareSlaveToMasterMap
      (fun n => if n = 0 then some 5 else none) [[0, 1], [0]]).ghosts ∧
    countOcc 0 (prepareSlaveToMasterMap
      (fun n => if n = 0 then some 5 else none) [[0, 1], [0]]).queries = 1 ∧
    lookupMap (prepareSlaveToMasterMap
      (fun n => if n = 0 then some 5 else none) [[0, 1], [0]]).map 1 = none := by
  have h := C6_prepareSlaveToMasterMap
    (fun n => if n = 0 then some 5 else none) [[0, 1], [0]]
  have h0 := h.2.1 0 5 (by decide) rfl
  have h1 := h.2.2 1 rfl
  exact ⟨h0.1, h0.2.1, h0.2.2.1, h0.2.2.2, h1⟩


/-- C7: `shouldApply` for a node absent from the slave-to-master map
returns `false` and leaves the state untouched; for a node present with
stored master element `mid` (and a formulation on which
`reinitConstraint` succeeds with value `r`) it returns `true`, sets `mid`
as the neighbor context, reinitializes at exactly the single point given
by the slave node's coordinates, and stores the recomputed constraint
residual `r`. -/
theorem C7_shouldApply (s : ApplyState) :
    (lookupMap s.slave_to_master_map s.current_node.id = none →
      shouldApply s = .ok (false, s)) ∧
    (∀ mid r, lookupMap s.slave_to_master_map s.current_node.id = some mid →
      reinitConstraint s.cs = .ok r →
      shouldApply s = .ok (true,
        { s with
          neighbor_elem := some mid,
          reinit_points := [s.current_node.coords],
          cs := { s.cs with constraint_residual := r } })) := by
  refine ⟨?_, ?_⟩
  · intro h
    simp [shouldApply, h]
  · intro mid r hmid hr
    simp [shouldApply, hmid, hr]

/-- Witness for C7: with map [(3, 9)], a current node with id 3 at
coordinates (1, 2, 3) and the penalty scenario constraint state,
`shouldApply` returns `true`, records neighbor element 9 and the single
reinit point (1, 2, 3) and stores constraint residual 10; with the empty
map it returns `false` and changes nothing. -/
theorem C7_witness :
    shouldApply
      { cs := scenarioState, slave_to_master_map := [(3, 9)],
        current_node := { id := 3, coords := (1, 2, 3) },
        neighbor_elem := none, reinit_points := [] } =
      .ok (true,
        { cs := { scenarioState with constraint_residual := 10 },
          slave_to_master_map := [(3, 9)],
          current_node := { id := 3, coords := (1, 2, 3) },
          neighbor_elem := some 9, reinit_points := [(1, 2, 3)] }) ∧
    shouldApply
      { cs := scenarioState, slave_to_master_map := [],
        current_node := { id := 3, coords := (1, 2, 3) },
        neighbor_elem := none, reinit_points := [] } =
      .ok (false,
        { cs := scenarioState, slave_to_master_map := [],
          current_node := { id := 3, coords := (1, 2, 3) },
          neighbor_elem := none, reinit_points := [] }) := by
  constructor
  · have h := (C7_shouldApply
      { cs := scenarioState, slave_to_master_map := [(3, 9)],
        current_node := { id := 3, coords := (1, 2, 3) },
        neighbor_elem := none, reinit_points := [] }).2 9 10 rfl
      (by norm_num [reinitConstraint, scenarioState])
    rw [h]
  · exact (C7_shouldApply
      { cs := scenarioState, slave_to_master_map := [],
        current_node := { id := 3, coords := (1, 2, 3) },
        neighbor_elem := none, reinit_points := [] }).1 rfl


/-- C9: guard structure of the block assembler.  In `computeJacobian` the
slave-slave (`Kee`) and master-slave (`Kne`) blocks are always resized and
accumulated, while the slave-master (`Ken`) and master-master (`Knn`)
blocks are accumulated exactly when their pre-existing storage has nonzero
dimensions and are otherwise left unchanged.  In `computeOffDiagJacobian`
the slave-slave, slave-master and master-master blocks always accumulate
(even when the added value is 0), and only the master-slave block is
skipped (left as merely resized) when its post-resize dimensions are
zero. -/
theorem C9_block_assembly_guards (s : ConstraintState) (connected : List Nat)
    (node_var_dof : Nat) (b : JacBlocks) :
    ((computeJacobian s connected node_var_dof b).Kee =
      (b.Kee.resize s.test_slave.length connected.length).accum
        s.test_slave.length connected.length
        (fun i j => qpJacValue (getConnectedDofIndices s connected node_var_dof)
          .SlaveSlave i j 0)) ∧
    ((b.Ken.m = 0 ∨ b.Ken.n = 0) →
      (computeJacobian s connected node_var_dof b).Ken = b.Ken) ∧
    (0 < b.Ken.m ∧ 0 < b.Ken.n →
      (computeJacobian s connected node_var_dof b).Ken =
        b.Ken.accum s.test_slave.length s.phi_master.length
          (fun i j => qpJacValue (getConnectedDofIndices s connected node_var_dof)
            .SlaveMaster i j 0)) ∧
    ((computeJacobian s connected node_var_dof b).Kne =
      (b.Kne.resize s.test_master.length connected.length).accum
        s.test_master.length connected.length
        (fun i j => qpJacValue (getConnectedDofIndices s connected node_var_dof)
          .MasterSlave i j 0)) ∧
    ((b.Knn.m = 0 ∨ b.Knn.n = 0) →
      (computeJacobian s connected node_var_dof b).Knn = b.Knn) ∧
    (0 < b.Knn.m ∧ 0 < b.Knn.n →
      (computeJacobian s connected node_var_dof b).Knn =
        b.Knn.accum s.test_master.length s.phi_master.length
          (fun i j => qpJacValue (getConnectedDofIndices s connected node_var_dof)
            .MasterMaster i j 0)) ∧
    ((computeOffDiagJacobian s connected node_var_dof b).Kee =
      (b.Kee.resize s.test_slave.length connected.length).accum
        s.test_slave.length connected.length
        (fun i j => qpOffDiagValue (getConnectedDofIndices s connected node_var_dof)
          .SlaveSlave i j 0)) ∧
    ((computeOffDiagJacobian s connected node_var_dof b).Ken =
      b.Ken.accum s.test_slave.length s.phi_master.length
        (fun i j => qpOffDiagValue (getConnectedDofIndices s connected node_var_dof)
          .SlaveMaster i j 0)) ∧
    ((s.test_master.length = 0 ∨ connected.length = 0) →
      (computeOffDiagJacobian s connected node_var_dof b).Kne =
        b.Kne.resize s.test_master.length connected.length) ∧
    (0 < s.test_master.length ∧ 0 < connected.length →
      (computeOffDiagJacobian s connected node_var_dof b).Kne =
        (b.Kne.resize s.test_master.length connected.length).accum
          s.test_master.length connected.length
          (fun i j => qpOffDiagValue (getConnectedDofIndices s connected node_var_dof)
            .MasterSlave i j 0)) ∧
    ((computeOffDiagJacobian s connected node_var_dof b).Knn =
      b.Knn.accum s.test_master.length s.phi_master.length
        (fun i j => qpOffDiagValue (getConnectedDofIndices s connected node_var_dof)
          .MasterMaster i j 0)) := by
  refine ⟨?_, ?_, ?_, ?_, ?_, ?_, ?_, ?_, ?_, ?_, ?_⟩
  · simp [computeJacobian, getConnectedDofIndices]
  · intro h
    have hg : ¬ (0 < b.Ken.m ∧ 0 < b.Ken.n) := by omega
    simp [computeJacobian, hg]
  · intro h
    simp [computeJacobian, h, getConnectedDofIndices]
  · simp [computeJacobian, getConnectedDofIndices]
  · intro h
    have hg : ¬ (0 < b.Knn.m ∧ 0 < b.Knn.n) := by omega
    simp [computeJacobian, hg]
  · intro h
    simp [computeJacobian, h, getConnectedDofIndices]
  · simp [computeOffDiagJacobian, getConnectedDofIndices]
  · simp [computeOffDiagJacobian, getConnectedDofIndices]
  · intro h
    have hg : ¬ (0 < s.test_master.length ∧ 0 < connected.length) := by omega
    simp [computeOffDiagJacobian, DenseMat.resize, hg, getConnectedDofIndices]
  · intro h
    simp [computeOffDiagJacobian, DenseMat.resize, h, getConnectedDofIndices]
  · simp [computeOffDiagJacobian, getConnectedDofIndices]

/-- Witness for C9: with zero-dimensional `Ken`/`Knn` storage the
on-diagonal assembly leaves them unchanged, and with no master test
functions the off-diagonal assembly leaves `Kne` merely resized. -/
theorem C9_witness :
    (computeJacobian { scenarioState with test_master := [] } [0] 0
      { Kee := ⟨1, 1, fun _ _ => 0⟩, Ken := ⟨0, 0, fun _ _ => 0⟩,
        Kne := ⟨1, 1, fun _ _ => 0⟩, Knn := ⟨0, 0, fun _ _ => 0⟩ }).Ken =
      ⟨0, 0, fun _ _ => 0⟩ ∧
    (computeOffDiagJacobian { scenarioState with test_master := [] } [0] 0
      { Kee := ⟨1, 1, fun _ _ => 0⟩, Ken := ⟨0, 0, fun _ _ => 0⟩,
        Kne := ⟨1, 1, fun _ _ => 0⟩, Knn := ⟨0, 0, fun _ _ => 0⟩ }).Kne =
      DenseMat.resize ⟨1, 1, fun _ _ => 0⟩ 0 1 := by
  have h := C9_block_assembly_guards { scenarioState with test_master := [] } [0] 0
    { Kee := ⟨1, 1, fun _ _ => 0⟩, Ken := ⟨0, 0, fun _ _ => 0⟩,
      Kne := ⟨1, 1, fun _ _ => 0⟩, Knn := ⟨0, 0, fun _ _ => 0⟩ }
  refine ⟨h.2.1 (Or.inl rfl), ?_⟩
  have h2 := h.2.2.2.2.2.2.2.2.1 (Or.inl (by simp [scenarioState]))
  rw [h2]
  simp [scenarioState]


/-- C10: after `getConnectedDofIndices`, the synthetic slave basis vector
`_phi_slave` has one entry per connected dof index; each entry holds
exactly the single quadrature-point value `[if connected dof = node dof
then 1 else 0]`; when the connected dof indices are distinct (they
enumerate a set of dofs) at most one entry equals `[1]`; and when no
connected dof index equals the node's dof index every entry is `[0]` and
no error is raised (the function is total). -/
theorem C10_phi_slave_synthetic_basis (s : ConstraintState)
    (connected : List Nat) (node_var_dof : Nat) :
    ((getConnectedDofIndices s connected node_var_dof).phi_slave.length =
      connected.length) ∧
    (∀ j, j < connected.length →
      (getConnectedDofIndices s connected node_var_dof).phi_slave.getD j [] =
        [if connected.getD j 0 = node_var_dof then (1 : ℚ) else 0]) ∧
    (connected.Nodup → ∀ j1 j2, j1 < connected.length → j2 < connected.length →
      (getConnectedDofIndices s connected node_var_dof).phi_slave.getD j1 [] = [1] →
      (getConnectedDofIndices s connected node_var_dof).phi_slave.getD j2 [] = [1] →
      j1 = j2) ∧
    (node_var_dof ∉ connected → ∀ j, j < connected.length →
      (getConnectedDofIndices s connected node_var_dof).phi_slave.getD j [] =
        [(0 : ℚ)]) := by
  have hget : ∀ j, j < connected.length →
      (getConnectedDofIndices s connected node_var_dof).phi_slave.getD j [] =
        [if connected.getD j 0 = node_var_dof then (1 : ℚ) else 0] := by
    intro j hj
    simp only [getConnectedDofIndices]
    rw [List.getD_eq_getElem?_getD, List.getElem?_map]
    rw [List.getElem?_eq_getElem hj]
    simp [List.getD_eq_getElem?_getD, List.getElem?_eq_getElem hj]
  refine ⟨?_, hget, ?_, ?_⟩
  · simp [getConnectedDofIndices]
  · intro hnd j1 j2 hj1 hj2 e1 e2
    rw [hget j1 hj1] at e1
    rw [hget j2 hj2] at e2
    have d1 : connected.getD j1 0 = node_var_dof := by
      by_contra hc
      rw [if_neg hc] at e1
      have : (0 : ℚ) = 1 := by injection e1
      norm_num at this
    have d2 : connected.getD j2 0 = node_var_dof := by
      by_contra hc
      rw [if_neg hc] at e2
      have : (0 : ℚ) = 1 := by injection e2
      norm_num at this
    have g1 : connected.getD j1 0 = connected[j1] := by
      simp [List.getD_eq_getElem?_getD, List.getElem?_eq_getElem hj1]
    have g2 : connected.getD j2 0 = connected[j2] := by
      simp [List.getD_eq_getElem?_getD, List.getElem?_eq_getElem hj2]
    have : connected[j1] = connected[j2] := by
      rw [← g1, ← g2, d1, d2]
    exact List.Nodup.getElem_inj_iff hnd |>.mp this
  · intro hno j hj
    rw [hget j hj]
    have : connected.getD j 0 ∈ connected := by
      have : connected.getD j 0 = connected[j] := by
        simp [List.getD_eq_getElem?_getD, List.getElem?_eq_getElem hj]
      rw [this]
      exact List.getElem_mem hj
    have hne : connected.getD j 0 ≠ node_var_dof := fun he => hno (he ▸ this)
    rw [if_neg hne]

/-- Witness for C10: for connected dofs [4, 7] and node dof 7 the vector
is [[0], [1]]; for node dof 9 (matching no connected dof) both entries
are [0]. -/
theorem C10_witness :
    (getConnectedDofIndices scenarioState [4, 7] 7).phi_slave.length = 2 ∧
    (getConnectedDofIndices scenarioState [4, 7] 7).phi_slave.getD 0 [] = [0] ∧
    (getConnectedDofIndices scenarioState [4, 7] 7).phi_slave.getD 1 [] = [1] ∧
    (getConnectedDofIndices scenarioState [4, 7] 9).phi_slave.getD 0 [] = [0] ∧
    (getConnectedDofIndices scenarioState [4, 7] 9).phi_slave.getD 1 [] = [0] := by
  have h7 := C10_phi_slave_synthetic_basis scenarioState [4, 7] 7
  have h9 := C10_phi_slave_synthetic_basis scenarioState [4, 7] 9
  refine ⟨h7.1, ?_, ?_, ?_, ?_⟩
  · rw [h7.2.1 0 (by norm_num)]; norm_num
  · rw [h7.2.1 1 (by norm_num)]; norm_num
  · exact h9.2.2.2 (by decide) 0 (by norm_num)
  · exact h9.2.2.2 (by decide) 1 (by norm_num)

end EqualValueEmbeddedConstraint
